import Mathlib

/-!
Verification development for the color-region-analyzer repository.

Part 1 embeds the front-end component `src/frontend/app/page.tsx`
(the `ImageProcessor` React component): its `Phase` union type, the
`Results` record, the state held in its `useState` hooks together with the
file-input DOM value, and the event handlers `handleFileSelect`,
`handleDrop`, `simulateUpload`, `startProcessing` and `handleReset`.
Asynchronous control flow (the upload `setInterval` and the awaited
processing steps) is split into its atomic state updates, and a step
relation collects which update can fire in which phase (an event handler
is available exactly when the corresponding DOM element is rendered).

Part 2 models the analysis core described by the specification, which has
no implementation under `src/` (the spec explicitly says the front end is
a stand-in for an unimplemented backend): pixel classification by
hue/saturation/value, region geometry (area and exposed-edge perimeter)
and the aggregated analysis report.
-/

namespace ColorRegionAnalyzer

/-- The `Phase` union type: `"upload" | "processing" | "result"`. -/
inductive Phase
  | upload
  | processing
  | result
deriving DecidableEq, Repr

/-- The `Results` interface of `page.tsx`: four numeric fields. -/
structure Results where
  redArea : Nat
  blueArea : Nat
  redPerimeter : Nat
  bluePerimeter : Nat
deriving DecidableEq, Repr

/-- A browser `File`: the component only reads its `name` and MIME `type`. -/
structure File where
  name : String
  type : String
deriving DecidableEq, Repr

/-- The `ProcessingStep` interface: a label and a duration in ms. -/
structure ProcessingStep where
  label : String
  duration : Nat
deriving DecidableEq, Repr

/-- The `processingSteps` constant of `page.tsx`. -/
def processingSteps : List ProcessingStep :=
  [⟨"Segmenting image...", 1500⟩,
   ⟨"Detecting red and blue regions...", 2000⟩,
   ⟨"Calculating area and perimeter...", 1500⟩,
   ⟨"Preparing result...", 1000⟩]

/-- The component state: the six `useState` hooks of `ImageProcessor`
plus the DOM value of the file input referenced by `fileInputRef`. -/
structure State where
  phase : Phase
  uploadProgress : Nat
  currentStep : Nat
  selectedFile : Option File
  previewUrl : Option String
  results : Option Results
  fileInputValue : String
deriving DecidableEq, Repr

/-- Initial component state: the `useState` initial values and an empty
file input. -/
def initialState : State :=
  { phase := Phase.upload
    uploadProgress := 0
    currentStep := 0
    selectedFile := Option.none
    previewUrl := Option.none
    results := Option.none
    fileInputValue := "" }

/-- Model of `URL.createObjectURL`: a deterministic blob URL for the file. -/
def createObjectURL (f : File) : String := "blob:" ++ f.name

/-- The MIME-type guard shared by `handleFileSelect` and `handleDrop`:
`file.type === "image/jpeg" || file.type === "image/png"`. -/
def acceptedType (f : File) : Bool :=
  f.type == "image/jpeg" || f.type == "image/png"

/-- The synchronous prefix of `simulateUpload`: `setPhase("upload")` and
`setUploadProgress(0)` (the interval it installs is modelled by the
`uploadTickFn` steps below). -/
def simulateUploadStart (s : State) : State :=
  { s with phase := Phase.upload, uploadProgress := 0 }

/-- `handleFileSelect`: reads `event.target.files?.[0]`; when a JPEG or
PNG file is present it stores the file, creates a preview URL and starts
the simulated upload, otherwise it does nothing. -/
def handleFileSelect (f : Option File) (s : State) : State :=
  match f with
  | Option.some file =>
      if acceptedType file then
        simulateUploadStart
          { s with selectedFile := Option.some file
                   previewUrl := Option.some (createObjectURL file) }
      else s
  | Option.none => s

/-- `handleDrop`: reads `e.dataTransfer.files[0]` and repeats the body of
`handleFileSelect`. -/
def handleDrop (f : Option File) (s : State) : State :=
  match f with
  | Option.some file =>
      if acceptedType file then
        simulateUploadStart
          { s with selectedFile := Option.some file
                   previewUrl := Option.some (createObjectURL file) }
      else s
  | Option.none => s

/-- The synchronous prefix of `startProcessing`: `setPhase("processing")`
and `setCurrentStep(0)`. -/
def startProcessingBegin (s : State) : State :=
  { s with phase := Phase.processing, currentStep := 0 }

/-- One firing of the `setInterval` callback in `simulateUpload`: when
progress has reached 100 the interval is cleared and `startProcessing`
begins, otherwise progress advances by 10. -/
def uploadTickFn (s : State) : State :=
  if 100 ≤ s.uploadProgress then
    startProcessingBegin { s with uploadProgress := 100 }
  else
    { s with uploadProgress := s.uploadProgress + 10 }

/-- `setCurrentStep(i)` inside the processing loop of `startProcessing`. -/
def setCurrentStep (i : Nat) (s : State) : State :=
  { s with currentStep := i }

/-- The hard-coded numbers passed to `setResults` in `startProcessing`. -/
def simulatedResults : Results :=
  { redArea := 5321, blueArea := 4872, redPerimeter := 610, bluePerimeter := 580 }

/-- The final statements of `startProcessing`: `setResults({...})` with the
hard-coded numbers, then `setPhase("result")`. -/
def finishProcessing (s : State) : State :=
  { s with results := Option.some simulatedResults, phase := Phase.result }

/-- The whole of `startProcessing` run to completion: enter the processing
phase, walk `currentStep` through the four timed steps, then store the
hard-coded results and enter the result phase. -/
def startProcessing (s : State) : State :=
  finishProcessing
    ((List.range processingSteps.length).foldl (fun st i => setCurrentStep i st)
      (startProcessingBegin s))

/-- `handleReset`: resets every hook to its initial value and clears the
file input. -/
def handleReset (s : State) : State :=
  { s with phase := Phase.upload
           uploadProgress := 0
           currentStep := 0
           selectedFile := Option.none
           previewUrl := Option.none
           results := Option.none
           fileInputValue := "" }

/-- Atomic state updates of the component, guarded by the phase in which
the corresponding handler or callback can fire: the file input and the
drop zone are rendered only in the upload phase, the upload interval runs
in the upload phase, the processing loop and its continuation run in the
processing phase, and the reset button can be modelled as available from
any state. -/
inductive Step : State → State → Prop
  | fileSelect {s : State} (f : Option File) :
      s.phase = Phase.upload → Step s (handleFileSelect f s)
  | drop {s : State} (f : Option File) :
      s.phase = Phase.upload → Step s (handleDrop f s)
  | uploadTick {s : State} :
      s.phase = Phase.upload → Step s (uploadTickFn s)
  | stepAdvance {s : State} (i : Nat) :
      s.phase = Phase.processing → i < processingSteps.length →
      Step s (setCurrentStep i s)
  | finish {s : State} :
      s.phase = Phase.processing → Step s (finishProcessing s)
  | reset {s : State} : Step s (handleReset s)

/-- States reachable from the initial component state. -/
inductive Reach : State → Prop
  | init : Reach initialState
  | step {s s' : State} : Reach s → Step s s' → Reach s'

/-- Modelled from the spec: an 8-bit RGB sample of the `PixelBuffer`
(§3); the analysis core has no implementation under `src/`. -/
structure RGB where
  r : Nat
  g : Nat
  b : Nat
deriving DecidableEq, Repr

/-- Modelled from the spec: the `PixelBuffer` data model (§3) — a
width × height grid of RGB samples, row-major with origin top-left,
given here by its dimensions and a sample function. -/
structure PixelBuffer where
  width : Nat
  height : Nat
  pixels : Nat → Nat → RGB

/-- Modelled from the spec: the per-pixel `Category` (§3). -/
inductive Category
  | red
  | blue
  | none
deriving DecidableEq, Repr

/-- Modelled from the spec: `ClassificationConfig` (§4.1) — hue ranges in
degrees and saturation/value floors in [0,1]. -/
structure ClassificationConfig where
  redHueRange : ℚ × ℚ
  blueHueRange : ℚ × ℚ
  minSaturation : ℚ
  minValue : ℚ
deriving DecidableEq, Repr

/-- Modelled from the spec: the documented default configuration (§6):
red hue 345°–15°, blue hue 200°–250°, minSaturation 0.35, minValue 0.2. -/
def defaultConfig : ClassificationConfig :=
  { redHueRange := (345, 15)
    blueHueRange := (200, 250)
    minSaturation := 35 / 100
    minValue := 2 / 10 }

/-- Modelled from the spec: the HSV hue of an RGB sample in degrees
[0, 360), by the standard piecewise formula; 0 where the hue is
undefined (zero chroma). -/
def hue (p : RGB) : ℚ :=
  let mx : ℤ := max (p.r : ℤ) (max (p.g : ℤ) (p.b : ℤ))
  let mn : ℤ := min (p.r : ℤ) (min (p.g : ℤ) (p.b : ℤ))
  let d : ℚ := ((mx - mn : ℤ) : ℚ)
  if d = 0 then 0
  else if mx = (p.r : ℤ) then
    let h := 60 * (((p.g : ℚ) - (p.b : ℚ)) / d)
    if h < 0 then h + 360 else h
  else if mx = (p.g : ℤ) then 60 * (((p.b : ℚ) - (p.r : ℚ)) / d) + 120
  else 60 * (((p.r : ℚ) - (p.g : ℚ)) / d) + 240

/-- Modelled from the spec: membership of a hue in a configured range,
allowing ranges such as 345°–15° that wrap around 0°. -/
def hueInRange (lo hi h : ℚ) : Bool :=
  if lo ≤ hi then decide (lo ≤ h ∧ h ≤ hi) else decide (lo ≤ h ∨ h ≤ hi)

/-- Modelled from the spec: the `PixelClassifier` rule (§4.1) — a pixel
converted to HSV is labeled Red or Blue only if its hue falls in the
respective range and saturation/value exceed the configured minimums,
otherwise None; hue is undefined at zero chroma (which includes every
zero-saturation pixel) and such pixels are always None. -/
def classifyPixel (cfg : ClassificationConfig) (p : RGB) : Category :=
  let mx := max p.r (max p.g p.b)
  let mn := min p.r (min p.g p.b)
  if mx = mn then Category.none
  else
    let s : ℚ := ((mx - mn : Nat) : ℚ) / (mx : ℚ)
    let v : ℚ := (mx : ℚ) / 255
    if s ≤ cfg.minSaturation ∨ v ≤ cfg.minValue then Category.none
    else if hueInRange cfg.redHueRange.1 cfg.redHueRange.2 (hue p) then Category.red
    else if hueInRange cfg.blueHueRange.1 cfg.blueHueRange.2 (hue p) then Category.blue
    else Category.none

/-- Modelled from the spec: the category of a grid cell of the
`ClassifiedGrid` (§3, §4.1), with every cell outside the grid bounds
treated as None (a neighbor outside the grid is a non-member, §4.3). -/
def gridCat (cfg : ClassificationConfig) (buf : PixelBuffer) (x y : ℤ) : Category :=
  if 0 ≤ x ∧ x < (buf.width : ℤ) ∧ 0 ≤ y ∧ y < (buf.height : ℤ) then
    classifyPixel cfg (buf.pixels x.toNat y.toNat)
  else Category.none

/-- Modelled from the spec: the coordinate set of the classified grid. -/
def cells (buf : PixelBuffer) : Finset (ℤ × ℤ) :=
  Finset.Ico 0 (buf.width : ℤ) ×ˢ Finset.Ico 0 (buf.height : ℤ)

/-- Modelled from the spec: the 4 edge-neighbors of a grid cell (§4.2,
§4.3 — adjacency is 4-connected). -/
def cellNeighbors (c : ℤ × ℤ) : List (ℤ × ℤ) :=
  [(c.1 + 1, c.2), (c.1 - 1, c.2), (c.1, c.2 + 1), (c.1, c.2 - 1)]

/-- Modelled from the spec: the total area of a category (§3, §4.3) —
regions of one category partition that category's cells, so the sum of
the member regions' areas is the number of cells of the category. -/
def categoryArea (cfg : ClassificationConfig) (buf : PixelBuffer)
    (cat : Category) : Nat :=
  ((cells buf).filter (fun p => gridCat cfg buf p.1 p.2 = cat)).card

/-- Modelled from the spec: the total perimeter of a category (§4.3) —
each region's perimeter counts, over its member cells, the 4
edge-neighbors that are not members of the same region; under maximal
4-connected regions a same-category edge-neighbor is always a member of
the same region, so the sum over a category's regions counts, over the
category's cells, the edge-neighbors that are out of the grid or of a
different category. -/
def categoryPerimeter (cfg : ClassificationConfig) (buf : PixelBuffer)
    (cat : Category) : Nat :=
  Finset.sum ((cells buf).filter (fun p => gridCat cfg buf p.1 p.2 = cat))
    (fun p => (cellNeighbors p).countP (fun q => decide (gridCat cfg buf q.1 q.2 ≠ cat)))

/-- Modelled from the spec: the `AnalysisReport` in the flattened
two-category view consumed by the presentation layer (§3, §6). -/
structure AnalysisReport where
  redArea : Nat
  blueArea : Nat
  redPerimeter : Nat
  bluePerimeter : Nat
deriving DecidableEq, Repr

/-- Modelled from the spec: the `AnalysisPipeline` contract (§4.4) —
classification → labeling → measurement → aggregated report, with no
error path other than rejecting zero-dimension buffers. -/
def analyze (buf : PixelBuffer) (cfg : ClassificationConfig) :
    Option AnalysisReport :=
  if buf.width = 0 ∨ buf.height = 0 then Option.none
  else Option.some
    { redArea := categoryArea cfg buf Category.red
      blueArea := categoryArea cfg buf Category.blue
      redPerimeter := categoryPerimeter cfg buf Category.red
      bluePerimeter := categoryPerimeter cfg buf Category.blue }

/-- Modelled from the spec: a `Region` (§3) — its category and its set of
member coordinates. -/
structure Region where
  category : Category
  members : Finset (ℤ × ℤ)

/-- Modelled from the spec: region area — the number of member cells
(§4.3). -/
def regionArea (R : Finset (ℤ × ℤ)) : Nat := R.card

/-- Modelled from the spec: region perimeter (§4.3) — the sum over all
member cells of the count of that cell's 4 edge-neighbors that are not
members of the region (a neighbor outside the grid is never a member and
so contributes). -/
def regionPerimeter (R : Finset (ℤ × ℤ)) : Nat :=
  Finset.sum R (fun c => (cellNeighbors c).countP (fun q => decide (q ∉ R)))

/-- Modelled from the spec: the `GeometryMeasurer` contract (§4.3) —
`measure(region) -> (area, perimeter)`. -/
def measure (r : Region) : Nat × Nat :=
  (regionArea r.members, regionPerimeter r.members)

/-- Modelled from the spec: 4-adjacency of grid cells (§4.2) — only cells
sharing an edge, not a diagonal corner. -/
def adj4 (a b : ℤ × ℤ) : Prop :=
  (a.1 = b.1 ∧ (a.2 = b.2 + 1 ∨ a.2 + 1 = b.2)) ∨
  (a.2 = b.2 ∧ (a.1 = b.1 + 1 ∨ a.1 + 1 = b.1))

/-- Modelled from the spec: connectivity inside a member set — a path of
4-adjacent member cells. -/
inductive connIn (R : Finset (ℤ × ℤ)) : (ℤ × ℤ) → (ℤ × ℤ) → Prop
  | refl (a : ℤ × ℤ) : a ∈ R → connIn R a a
  | tail {a b c : ℤ × ℤ} : connIn R a b → c ∈ R → adj4 b c → connIn R a c

/-- Modelled from the spec: a valid region (§3) — a nonempty 4-connected
set of cells sharing one non-None category. -/
def Region.wf (r : Region) : Prop :=
  r.category ≠ Category.none ∧ r.members.Nonempty ∧
    ∀ a ∈ r.members, ∀ b ∈ r.members, connIn r.members a b

/-- The all-black pixel: zero saturation. -/
def blackPixel : RGB := { r := 0, g := 0, b := 0 }

/-- A concrete one-pixel all-black buffer. -/
def blackBuf : PixelBuffer := { width := 1, height := 1, pixels := fun _ _ => blackPixel }

end ColorRegionAnalyzer

namespace ColorRegionAnalyzer

/-- Claim C3: the displayed analysis output is a fixed constant
independent of the selected file: from every component state,
`startProcessing` sets `results` to exactly
`{redArea: 5321, blueArea: 4872, redPerimeter: 610, bluePerimeter: 580}`
and ends in the result phase; no part of the output depends on the input. -/
theorem startProcessing_constant (s : State) :
    (startProcessing s).results =
      Option.some { redArea := 5321, blueArea := 4872,
                    redPerimeter := 610, bluePerimeter := 580 } ∧
    (startProcessing s).phase = Phase.result := by
  exact ⟨rfl, rfl⟩

/-- Claim C10: `handleReset` restores the exact initial component state
from any state, and is therefore idempotent. -/
theorem handleReset_restores_initial (s : State) :
    handleReset s = initialState ∧
    handleReset (handleReset s) = handleReset s := by
  exact ⟨rfl, rfl⟩

/-- Claim C8: for a file whose MIME type is neither `image/jpeg` nor
`image/png`, or when no file is provided, both `handleFileSelect` and
`handleDrop` leave the component state unchanged. -/
theorem rejected_file_leaves_state_unchanged (s : State) (f : Option File)
    (h : ∀ file, f = Option.some file →
      file.type ≠ "image/jpeg" ∧ file.type ≠ "image/png") :
    handleFileSelect f s = s ∧ handleDrop f s = s := by
  cases f with
  | none => exact ⟨rfl, rfl⟩
  | some file =>
      have hf := h file rfl
      have hacc : acceptedType file = false := by
        unfold acceptedType
        simp [hf.1, hf.2]
      constructor
      · unfold handleFileSelect
        simp [hacc]
      · unfold handleDrop
        simp [hacc]

/-- Witness for C8 at a concrete GIF file and the initial state. -/
theorem rejected_file_leaves_state_unchanged_witness :
    handleFileSelect (Option.some { name := "a.gif", type := "image/gif" }) initialState
      = initialState ∧
    handleDrop (Option.some { name := "a.gif", type := "image/gif" }) initialState
      = initialState := by
  refine rejected_file_leaves_state_unchanged initialState _ ?_
  intro file hf
  cases hf
  exact ⟨by decide, by decide⟩

/-- An accepted file select keeps the component in the upload phase. -/
lemma handleFileSelect_phase (f : Option File) (s : State) :
    (handleFileSelect f s).phase = Phase.upload ∨
    (handleFileSelect f s).phase = s.phase := by
  cases f with
  | none => exact Or.inr rfl
  | some file =>
      unfold handleFileSelect
      by_cases hacc : acceptedType file = true
      · simp [hacc, simulateUploadStart]
      · simp [Bool.not_eq_true] at hacc
        simp [hacc]

/-- An accepted drop keeps the component in the upload phase. -/
lemma handleDrop_phase (f : Option File) (s : State) :
    (handleDrop f s).phase = Phase.upload ∨
    (handleDrop f s).phase = s.phase := by
  cases f with
  | none => exact Or.inr rfl
  | some file =>
      unfold handleDrop
      by_cases hacc : acceptedType file = true
      · simp [hacc, simulateUploadStart]
      · simp [Bool.not_eq_true] at hacc
        simp [hacc]

/-- An upload tick either stays in the current phase or enters the
processing phase. -/
lemma uploadTickFn_phase (s : State) :
    (uploadTickFn s).phase = Phase.processing ∨
    (uploadTickFn s).phase = s.phase := by
  unfold uploadTickFn
  by_cases h : 100 ≤ s.uploadProgress
  · simp [h, startProcessingBegin]
  · simp [h]

/-- Claim C5 (helper): one step changes the phase only along an allowed
edge of the upload/processing/result state machine. -/
lemma step_phase_edge {s s' : State} (hstep : Step s s') :
    s'.phase = s.phase ∨
    (s.phase = Phase.upload ∧ s'.phase = Phase.processing) ∨
    (s.phase = Phase.processing ∧ s'.phase = Phase.result) ∨
    s'.phase = Phase.upload := by
  cases hstep with
  | fileSelect f h =>
      rcases handleFileSelect_phase f _ with hp | hp
      · exact Or.inl (by rw [hp, h])
      · exact Or.inl hp
  | drop f h =>
      rcases handleDrop_phase f _ with hp | hp
      · exact Or.inl (by rw [hp, h])
      · exact Or.inl hp
  | uploadTick h =>
      rcases uploadTickFn_phase _ with hp | hp
      · exact Or.inr (Or.inl ⟨h, hp⟩)
      · exact Or.inl hp
  | stepAdvance i h hi => exact Or.inl rfl
  | finish h => exact Or.inr (Or.inr (Or.inl ⟨h, rfl⟩))
  | reset => exact Or.inr (Or.inr (Or.inr rfl))

/-- Claim C5: the phase only ever holds one of the three values `upload`,
`processing`, `result`, and every transition reachable in the component's
step relation is one of upload→processing (upload completed),
processing→result (analysis steps completed), back to upload (reset), or
leaves the phase unchanged. -/
theorem phase_state_machine (s s' : State) (hreach : Reach s) (hstep : Step s s') :
    (s'.phase = Phase.upload ∨ s'.phase = Phase.processing ∨
      s'.phase = Phase.result) ∧
    (s'.phase = s.phase ∨
      (s.phase = Phase.upload ∧ s'.phase = Phase.processing) ∨
      (s.phase = Phase.processing ∧ s'.phase = Phase.result) ∨
      s'.phase = Phase.upload) := by
  refine ⟨?_, step_phase_edge hstep⟩
  cases hp : s'.phase with
  | upload => exact Or.inl rfl
  | processing => exact Or.inr (Or.inl rfl)
  | result => exact Or.inr (Or.inr rfl)

/-- Witness for C5: the reset step from the initial state. -/
theorem phase_state_machine_witness :
    ((handleReset initialState).phase = Phase.upload ∨
      (handleReset initialState).phase = Phase.processing ∨
      (handleReset initialState).phase = Phase.result) ∧
    ((handleReset initialState).phase = initialState.phase ∨
      (initialState.phase = Phase.upload ∧
        (handleReset initialState).phase = Phase.processing) ∨
      (initialState.phase = Phase.processing ∧
        (handleReset initialState).phase = Phase.result) ∨
      (handleReset initialState).phase = Phase.upload) :=
  phase_state_machine initialState (handleReset initialState) Reach.init Step.reset

/-- Invariant shared by C4 and C9: in every reachable state whose phase is
`result`, the stored results are present. -/
lemma reach_result_results_present {s : State} (hreach : Reach s) :
    s.phase = Phase.result → s.results ≠ Option.none := by
  induction hreach with
  | init => intro h; exact absurd h (by decide)
  | step hr hstep ih =>
      rename_i s s'
      cases hstep with
      | fileSelect f h =>
          intro hp
          rcases handleFileSelect_phase f s with hq | hq
          · rw [hp] at hq; exact absurd hq (by decide)
          · rw [hp, h] at hq; exact absurd hq (by decide)
      | drop f h =>
          intro hp
          rcases handleDrop_phase f s with hq | hq
          · rw [hp] at hq; exact absurd hq (by decide)
          · rw [hp, h] at hq; exact absurd hq (by decide)
      | uploadTick h =>
          intro hp
          rcases uploadTickFn_phase s with hq | hq
          · rw [hp] at hq; exact absurd hq (by decide)
          · rw [hp, h] at hq; exact absurd hq (by decide)
      | stepAdvance i h hi =>
          intro hp
          have : (setCurrentStep i s).phase = s.phase := rfl
          rw [hp, h] at this
          exact absurd this (by decide)
      | finish h =>
          intro hp
          simp [finishProcessing]
      | reset =>
          intro hp
          have : (handleReset s).phase = Phase.upload := rfl
          rw [hp] at this
          exact absurd this (by decide)

/-- Claim C9: whenever the phase is `result` in a reachable state, the
results value is non-null. -/
theorem result_phase_has_results (s : State) (hreach : Reach s)
    (hp : s.phase = Phase.result) : s.results ≠ Option.none :=
  reach_result_results_present hreach hp

/-- A concrete run: eleven upload ticks from the initial state bring the
component to the processing phase. -/
def demoProcessingState : State :=
  uploadTickFn (uploadTickFn (uploadTickFn (uploadTickFn (uploadTickFn
    (uploadTickFn (uploadTickFn (uploadTickFn (uploadTickFn (uploadTickFn
      (uploadTickFn initialState))))))))))

/-- A concrete run reaching the result phase. -/
def demoResultState : State := finishProcessing demoProcessingState

/-- The processing-phase state of the concrete run is reachable. -/
lemma reach_demoProcessingState : Reach demoProcessingState := by
  have h0 : Reach initialState := Reach.init
  have h1 := Reach.step h0 (Step.uploadTick (by decide))
  have h2 := Reach.step h1 (Step.uploadTick (by decide))
  have h3 := Reach.step h2 (Step.uploadTick (by decide))
  have h4 := Reach.step h3 (Step.uploadTick (by decide))
  have h5 := Reach.step h4 (Step.uploadTick (by decide))
  have h6 := Reach.step h5 (Step.uploadTick (by decide))
  have h7 := Reach.step h6 (Step.uploadTick (by decide))
  have h8 := Reach.step h7 (Step.uploadTick (by decide))
  have h9 := Reach.step h8 (Step.uploadTick (by decide))
  have h10 := Reach.step h9 (Step.uploadTick (by decide))
  exact Reach.step h10 (Step.uploadTick (by decide))

/-- The result-phase state of the concrete run is reachable. -/
lemma reach_demoResultState : Reach demoResultState :=
  Reach.step reach_demoProcessingState (Step.finish (by decide))

/-- Witness for C9 at the concrete reachable result state. -/
theorem result_phase_has_results_witness :
    demoResultState.results ≠ Option.none :=
  result_phase_has_results demoResultState reach_demoResultState (by decide)

/-- Claim C4: the report the presentation layer consumes has exactly the
four numeric fields `redArea`, `blueArea`, `redPerimeter`,
`bluePerimeter` — every `Results` value is fully determined by those four
fields — and whenever the component renders the result view (a reachable
state in the result phase) a complete `Results` object is present. -/
theorem report_shape (r : Results) (s : State) (hreach : Reach s)
    (hp : s.phase = Phase.result) :
    r = { redArea := r.redArea, blueArea := r.blueArea,
          redPerimeter := r.redPerimeter, bluePerimeter := r.bluePerimeter } ∧
    ∃ res : Results, s.results = Option.some res := by
  refine ⟨rfl, ?_⟩
  have h := reach_result_results_present hreach hp
  cases hres : s.results with
  | none => exact absurd hres h
  | some res => exact ⟨res, rfl⟩

/-- Claim C1: determinism of the analysis. Two invocations of the core
`analyze` on the same buffer and configuration yield the same report, and
two executions of the front end's `startProcessing`, from any two prior
component states, store equal `Results` objects. -/
theorem analysis_deterministic
    (buf : PixelBuffer) (cfg : ClassificationConfig)
    (r1 r2 : Option AnalysisReport)
    (h1 : analyze buf cfg = r1) (h2 : analyze buf cfg = r2)
    (s t : State) :
    r1 = r2 ∧ (startProcessing s).results = (startProcessing t).results :=
  ⟨h1.symm.trans h2, rfl⟩

/-- Witness for C1 at the all-black one-pixel buffer and the default
configuration. -/
theorem analysis_deterministic_witness :
    (Option.some { redArea := 0, blueArea := 0, redPerimeter := 0, bluePerimeter := 0 }
        : Option AnalysisReport)
      = Option.some { redArea := 0, blueArea := 0, redPerimeter := 0, bluePerimeter := 0 } ∧
    (startProcessing initialState).results
      = (startProcessing (handleReset initialState)).results :=
  analysis_deterministic blackBuf defaultConfig _ _ (by decide) (by decide)
    initialState (handleReset initialState)

/-- Witness for C4 at a concrete report and the concrete reachable result
state. -/
theorem report_shape_witness :
    ({ redArea := 1, blueArea := 2, redPerimeter := 3, bluePerimeter := 4 } : Results)
      = { redArea := ({ redArea := 1, blueArea := 2, redPerimeter := 3, bluePerimeter := 4 } : Results).redArea,
          blueArea := ({ redArea := 1, blueArea := 2, redPerimeter := 3, bluePerimeter := 4 } : Results).blueArea,
          redPerimeter := ({ redArea := 1, blueArea := 2, redPerimeter := 3, bluePerimeter := 4 } : Results).redPerimeter,
          bluePerimeter := ({ redArea := 1, blueArea := 2, redPerimeter := 3, bluePerimeter := 4 } : Results).bluePerimeter } ∧
    ∃ res : Results, demoResultState.results = Option.some res :=
  report_shape _ demoResultState reach_demoResultState (by decide)

/-- A zero-chroma pixel is classified None under every configuration. -/
lemma classifyPixel_black (cfg : ClassificationConfig) :
    classifyPixel cfg blackPixel = Category.none := rfl

/-- On an all-black buffer every cell of the extended grid is None. -/
lemma gridCat_black (cfg : ClassificationConfig) (buf : PixelBuffer)
    (hb : ∀ x y, buf.pixels x y = blackPixel) (x y : ℤ) :
    gridCat cfg buf x y = Category.none := by
  unfold gridCat
  split
  · rw [hb]
    exact classifyPixel_black cfg
  · rfl

/-- Claim C2: analysing an all-black image (zero saturation at every
pixel) of positive dimensions yields a report whose four totals are all
zero, under every configuration. -/
theorem all_black_analysis_zero (buf : PixelBuffer) (cfg : ClassificationConfig)
    (hw : 0 < buf.width) (hh : 0 < buf.height)
    (hb : ∀ x y, buf.pixels x y = blackPixel) :
    analyze buf cfg =
      Option.some { redArea := 0, blueArea := 0, redPerimeter := 0, bluePerimeter := 0 } := by
  have hfilter : ∀ cat : Category, cat ≠ Category.none →
      (cells buf).filter (fun p => gridCat cfg buf p.1 p.2 = cat) = ∅ := by
    intro cat hcat
    apply Finset.filter_false_of_mem
    intro p hp hcontra
    rw [gridCat_black cfg buf hb] at hcontra
    exact hcat hcontra.symm
  have hred := hfilter Category.red (by decide)
  have hblue := hfilter Category.blue (by decide)
  unfold analyze
  rw [if_neg (by omega)]
  unfold categoryArea categoryPerimeter
  rw [hred, hblue]
  simp

/-- Witness for C2 at the concrete one-pixel all-black buffer and the
default configuration. -/
theorem all_black_analysis_zero_witness :
    analyze blackBuf defaultConfig =
      Option.some { redArea := 0, blueArea := 0, redPerimeter := 0, bluePerimeter := 0 } :=
  all_black_analysis_zero blackBuf defaultConfig (by decide) (by decide)
    (fun _ _ => rfl)

/-- The exposed-edge count of one cell, written out over the four
neighbors. -/
lemma countP_cellNeighbors (R : Finset (ℤ × ℤ)) (c : ℤ × ℤ) :
    (cellNeighbors c).countP (fun q => decide (q ∉ R)) =
      (if (c.1 + 1, c.2) ∈ R then 0 else 1) +
      (if (c.1 - 1, c.2) ∈ R then 0 else 1) +
      (if (c.1, c.2 + 1) ∈ R then 0 else 1) +
      (if (c.1, c.2 - 1) ∈ R then 0 else 1) := by
  simp only [cellNeighbors, List.countP_cons, List.countP_nil,
    decide_eq_true_eq, ite_not]
  split_ifs <;> omega

/-- Claim C6: a single-pixel region of any non-None category is a valid
region and the geometry measurement returns area 1 and perimeter 4. -/
theorem single_pixel_region (cat : Category) (c : ℤ × ℤ)
    (h : cat ≠ Category.none) :
    Region.wf { category := cat, members := {c} } ∧
    measure { category := cat, members := {c} } = (1, 4) := by
  constructor
  · refine ⟨h, ⟨c, Finset.mem_singleton_self c⟩, ?_⟩
    intro a ha b hb
    rw [Finset.mem_singleton] at ha hb
    rw [ha, hb]
    exact connIn.refl c (Finset.mem_singleton_self c)
  · unfold measure regionArea regionPerimeter
    rw [Finset.sum_singleton, countP_cellNeighbors, Finset.card_singleton]
    have h1 : ((c.1 + 1, c.2) : ℤ × ℤ) ∉ ({c} : Finset (ℤ × ℤ)) := by
      rw [Finset.mem_singleton]
      intro hc
      have := congrArg Prod.fst hc
      simp only at this
      omega
    have h2 : ((c.1 - 1, c.2) : ℤ × ℤ) ∉ ({c} : Finset (ℤ × ℤ)) := by
      rw [Finset.mem_singleton]
      intro hc
      have := congrArg Prod.fst hc
      simp only at this
      omega
    have h3 : ((c.1, c.2 + 1) : ℤ × ℤ) ∉ ({c} : Finset (ℤ × ℤ)) := by
      rw [Finset.mem_singleton]
      intro hc
      have := congrArg Prod.snd hc
      simp only at this
      omega
    have h4 : ((c.1, c.2 - 1) : ℤ × ℤ) ∉ ({c} : Finset (ℤ × ℤ)) := by
      rw [Finset.mem_singleton]
      intro hc
      have := congrArg Prod.snd hc
      simp only at this
      omega
    rw [if_neg h1, if_neg h2, if_neg h3, if_neg h4]

/-- Witness for C6 at a concrete red single-pixel region at the origin. -/
theorem single_pixel_region_witness :
    Region.wf { category := Category.red, members := {((0 : ℤ), (0 : ℤ))} } ∧
    measure { category := Category.red, members := {((0 : ℤ), (0 : ℤ))} } = (1, 4) :=
  single_pixel_region Category.red (0, 0) (by decide)

/-- Claim C7: a solid N×M rectangular region (N, M ≥ 1) measures
area = N·M and perimeter = 2·(N+M), where the perimeter counts member-cell
edges whose 4-neighbor is not a member of the region. -/
theorem rectangle_region_measure (cat : Category) (x y : ℤ) (N M : Nat)
    (hN : 1 ≤ N) (hM : 1 ≤ M) :
    measure { category := cat,
              members := Finset.Icc x (x + N - 1) ×ˢ Finset.Icc y (y + M - 1) }
      = (N * M, 2 * (N + M)) := by
  have cardA : (Finset.Icc x (x + (N : ℤ) - 1)).card = N := by
    rw [Int.card_Icc]
    omega
  have cardB : (Finset.Icc y (y + (M : ℤ) - 1)).card = M := by
    rw [Int.card_Icc]
    omega
  have harea :
      regionArea (Finset.Icc x (x + (N : ℤ) - 1) ×ˢ Finset.Icc y (y + (M : ℤ) - 1))
        = N * M := by
    unfold regionArea
    rw [Finset.card_product, cardA, cardB]
  have hperi :
      regionPerimeter (Finset.Icc x (x + (N : ℤ) - 1) ×ˢ Finset.Icc y (y + (M : ℤ) - 1))
        = 2 * (N + M) := by
    unfold regionPerimeter
    rw [Finset.sum_product]
    have key : ∀ i ∈ Finset.Icc x (x + (N : ℤ) - 1),
        (Finset.sum (Finset.Icc y (y + (M : ℤ) - 1)) fun j =>
          (cellNeighbors (i, j)).countP fun q =>
            decide (q ∉ Finset.Icc x (x + (N : ℤ) - 1) ×ˢ Finset.Icc y (y + (M : ℤ) - 1)))
          = M * ((if i = x + (N : ℤ) - 1 then 1 else 0) + (if i = x then 1 else 0)) + 2 := by
      intro i hi
      rw [Finset.mem_Icc] at hi
      have hpoint : ∀ j ∈ Finset.Icc y (y + (M : ℤ) - 1),
          ((cellNeighbors (i, j)).countP fun q =>
            decide (q ∉ Finset.Icc x (x + (N : ℤ) - 1) ×ˢ Finset.Icc y (y + (M : ℤ) - 1)))
            = (if i = x + (N : ℤ) - 1 then 1 else 0) + (if i = x then 1 else 0) +
              (if j = y + (M : ℤ) - 1 then 1 else 0) + (if j = y then 1 else 0) := by
        intro j hj
        rw [Finset.mem_Icc] at hj
        rw [countP_cellNeighbors]
        have m1 : (((i, j).1 + 1, (i, j).2) ∈
            Finset.Icc x (x + (N : ℤ) - 1) ×ˢ Finset.Icc y (y + (M : ℤ) - 1))
              ↔ ¬ (i = x + (N : ℤ) - 1) := by
          simp only [Finset.mem_product, Finset.mem_Icc]
          omega
        have m2 : (((i, j).1 - 1, (i, j).2) ∈
            Finset.Icc x (x + (N : ℤ) - 1) ×ˢ Finset.Icc y (y + (M : ℤ) - 1))
              ↔ ¬ (i = x) := by
          simp only [Finset.mem_product, Finset.mem_Icc]
          omega
        have m3 : (((i, j).1, (i, j).2 + 1) ∈
            Finset.Icc x (x + (N : ℤ) - 1) ×ˢ Finset.Icc y (y + (M : ℤ) - 1))
              ↔ ¬ (j = y + (M : ℤ) - 1) := by
          simp only [Finset.mem_product, Finset.mem_Icc]
          omega
        have m4 : (((i, j).1, (i, j).2 - 1) ∈
            Finset.Icc x (x + (N : ℤ) - 1) ×ˢ Finset.Icc y (y + (M : ℤ) - 1))
              ↔ ¬ (j = y) := by
          simp only [Finset.mem_product, Finset.mem_Icc]
          omega
        rw [if_congr m1 rfl rfl, if_congr m2 rfl rfl, if_congr m3 rfl rfl,
          if_congr m4 rfl rfl, ite_not, ite_not, ite_not, ite_not]
      rw [Finset.sum_congr rfl hpoint]
      rw [Finset.sum_add_distrib, Finset.sum_add_distrib, Finset.sum_add_distrib,
        Finset.sum_const, Finset.sum_const, Finset.sum_ite_eq', Finset.sum_ite_eq',
        cardB]
      rw [if_pos (Finset.mem_Icc.mpr (by omega)), if_pos (Finset.mem_Icc.mpr (by omega))]
      rw [smul_eq_mul, smul_eq_mul]
      ring
    rw [Finset.sum_congr rfl key]
    rw [Finset.sum_add_distrib, Finset.sum_const, cardA, ← Finset.mul_sum,
      Finset.sum_add_distrib, Finset.sum_ite_eq', Finset.sum_ite_eq']
    rw [if_pos (Finset.mem_Icc.mpr (by omega)), if_pos (Finset.mem_Icc.mpr (by omega))]
    rw [smul_eq_mul]
    ring
  unfold measure
  rw [harea, hperi]

/-- Witness for C7 at a concrete 2×3 red rectangle at the origin. -/
theorem rectangle_region_measure_witness :
    measure { category := Category.red,
              members := Finset.Icc (0 : ℤ) (0 + (2 : Nat) - 1) ×ˢ
                Finset.Icc (0 : ℤ) (0 + (3 : Nat) - 1) }
      = ((2 : Nat) * 3, 2 * (2 + 3)) :=
  rectangle_region_measure Category.red 0 0 2 3 (by decide) (by decide)

end ColorRegionAnalyzer
